import Mathlib

/-!
# Shallow embedding of the `focela` error-wrapping package

This file embeds the error-wrapping-with-stack-trace subsystem of the
repository (`pkg/errors` together with its error-code subpackage
`pkg/errors/code`) and proves the stated properties about it.

Modelling conventions:

* A Go `error` interface value is a `GoErr`; `GoErr.nil` is the nil
  interface (and, as a method receiver, the nil `*Error` pointer).  The
  universe of error values contains the package's own `*Error` nodes
  (`GoErr.node`), plain external leaf errors such as those produced by the
  standard `errors.New` (`GoErr.extErr`), and external errors carrying a
  custom `Equal` comparator (`GoErr.extEqualer`, whose comparator is
  modelled with a constant result).  None of the external variants
  implement the `Causer`, `Coder`, `Stacker`, `Currenter` or `Unwrapper`
  interfaces, exactly like a plain `errors.New` value.
* A `code.Code` interface value is `Option LocalCode`; `none` is the nil
  interface, `some c` holds a `localCode` record.
* Go interface identity (`==`) is modelled as structural equality of the
  embedded values.
* Stack capture (`callers`) reads the machine state, so constructors take
  the captured stack as an explicit parameter `st`; a captured program
  counter resolves (`runtime.FuncForPC`) either to a `Frame` or to nothing,
  hence a stack is a `List (Option Frame)`.  A nil stack slice behaves
  exactly like the empty list.
* `fmt.Sprintf(format, args...)` results are passed in as the already
  formatted string.
* The process-global stack-mode flag (`core.IsStackModeBrief()`) and the
  normalized `runtime.GOROOT()` value (`goRootForFilter`) are passed as
  parameters `brief` and `goRoot`.
* Methods of `*Error` take a `GoErr` receiver, `GoErr.nil` being the nil
  pointer; they are only ever dispatched to `GoErr.node` values (as in Go,
  where only `*Error` has these methods), so their value on the external
  variants is irrelevant and chosen as the Go zero value.
-/

namespace Fastkit

/-- The `code.localCode` (pkg/errors/code): an error code with integer id,
brief message and optional detail.  The `detail` field has Go type
`interface{}`; every predefined code has nil detail and the claims only
ever compare details for equality, so it is embedded as `Option String`. -/
structure LocalCode where
  code : Int
  message : String
  detail : Option String
deriving DecidableEq, Repr

/-- The `code.CodeNil = localCode{-1, "", nil}`: no error code specified. -/
def CodeNil : LocalCode := ⟨-1, "", none⟩

/-- The `code.CodeOK = localCode{0, "OK", nil}`. -/
def CodeOK : LocalCode := ⟨0, "OK", none⟩

/-- The `code.CodeNotFound = localCode{65, "Not Found", nil}`. -/
def CodeNotFound : LocalCode := ⟨65, "Not Found", none⟩

/-- The `code.CodeInternalError = localCode{50, "Internal Error", nil}`. -/
def CodeInternalError : LocalCode := ⟨50, "Internal Error", none⟩

/-- A resolved stack frame: function name, file path and line number, as
produced by `runtime.FuncForPC(pc).FileLine(pc)`. -/
structure Frame where
  function : String
  file : String
  line : Nat
deriving DecidableEq, Repr

/-- The `stack` (api_stack.go): the captured program counters; each entry
resolves either to a frame (`some`) or to nothing (`none`, the case where
`runtime.FuncForPC` returns nil and the frame is silently skipped).  A nil
stack slice behaves like `[]`. -/
abbrev Stack := List (Option Frame)

/-- A Go `error` interface value of the modelled universe.

* `nil` is the nil interface value (or the nil `*Error` receiver).
* `node error stack text code` is a non-nil `*Error`
  (handler.go: `Error{error, stack, text, code}`).
* `extErr msg` is an external leaf error (e.g. `errors.New(msg)`): it
  implements only `Error() string`.
* `extEqualer msg b` is an external error additionally carrying an
  `Equal(target error) bool` method, modelled with constant result `b`. -/
inductive GoErr where
  | nil
  | node (error : GoErr) (stack : Stack) (text : String) (code : Option LocalCode)
  | extErr (msg : String)
  | extEqualer (msg : String) (b : Bool)
deriving DecidableEq, Repr

/-- The `commaSeparatorSpace = ", "` (interface file of the package). -/
def commaSeparatorSpace : String := ", "

/-- The `(*Error).Error` (handler.go lines 42-57), extended to every value of
the universe by each variant's own `Error() string` method; on the nil
receiver handler.go returns `""`. -/
def GoErr.errString : GoErr → String
  | .nil => ""
  | .node error _ text code =>
      let errStr := if text = "" ∧ code.isSome then (code.getD CodeNil).message else text
      match error with
      | .nil => errStr
      | inner => if errStr ≠ "" then errStr ++ ": " ++ inner.errString else inner.errString
  | .extErr msg => msg
  | .extEqualer msg _ => msg

/-- The `(*Error).Code` (part_027 lines 14-22): `CodeNil` on a nil receiver;
when the node's code field equals the `CodeNil` sentinel the lookup
continues with `Code(err.Unwrap())` (the `error` field), otherwise the
field is returned.  (A nil interface in the code field is *not* equal to
the `CodeNil` sentinel.)  On this universe the package-level `Code` agrees
with this method on every value — nil errors and the non-`Coder` external
errors give `CodeNil`, a `*Error` delegates to the method
(`CodeFn_eq_ErrCodeMethod` below) — so the mutual recursion through
`Code(err.Unwrap())` is written as a direct self-call. -/
def ErrCodeMethod : GoErr → Option LocalCode
  | .nil => some CodeNil
  | .node error _ _ code => if code = some CodeNil then ErrCodeMethod error else code
  | .extErr _ => some CodeNil
  | .extEqualer _ _ => some CodeNil

/-- Package-level `Code` (part_027 lines 141-152): nil gives `CodeNil`; a
`Coder` (here: `*Error`) delegates to its `Code` method; the modelled
external errors implement neither `Coder` nor `Unwrapper`, so they fall
through to `CodeNil`. -/
def CodeFn : GoErr → Option LocalCode
  | .nil => some CodeNil
  | .node error stack text code => ErrCodeMethod (.node error stack text code)
  | .extErr _ => some CodeNil
  | .extEqualer _ _ => some CodeNil

/-- The `(*Error).Cause` (handler.go lines 59-82): walks nested `*Error`s; at
a node whose inner error is nil it returns a fresh `errors.New(loop.text)`;
a non-`*Error` inner error is returned as is (none of the modelled
external errors implements `Causer`). -/
def ErrCauseMethod : GoErr → GoErr
  | .nil => .nil
  | .node error _ text _ =>
      match error with
      | .node _ _ _ _ => ErrCauseMethod error
      | .nil => .extErr text
      | ext => ext
  | .extErr _ => .nil
  | .extEqualer _ _ => .nil

/-- Package-level `Cause` (api_stack.go lines 23-34): nil gives nil; a
`Causer` (here: `*Error`) delegates to its `Cause` method; otherwise the
error itself is returned (no modelled external error is a `Causer` or an
`Unwrapper`). -/
def CauseFn : GoErr → GoErr
  | .nil => .nil
  | .node e s t c => ErrCauseMethod (.node e s t c)
  | ext => ext

/-- The `(*Error).Unwrap` (handler.go lines 100-105): nil receiver gives nil,
otherwise the wrapped `error` field. -/
def ErrUnwrapMethod : GoErr → GoErr
  | .node error _ _ _ => error
  | _ => .nil

/-- Package-level `Unwrap` (api_stack.go lines 62-70): delegates to the
`Unwrapper` method when implemented (here: `*Error`), else nil. -/
def UnwrapFn : GoErr → GoErr
  | .nil => .nil
  | .node e s t c => ErrUnwrapMethod (.node e s t c)
  | _ => .nil

/-- The `(*Error).Current` (handler.go lines 86-96): nil receiver gives nil,
otherwise a copy of the node with the wrapped error removed. -/
def ErrCurrentMethod : GoErr → GoErr
  | .node _ stack text code => .node .nil stack text code
  | _ => .nil

/-- The `(*Error).SetCode` (part_027 lines 25-30), in state-passing style:
returns the updated receiver (a nil receiver is left untouched). -/
def ErrSetCode (err : GoErr) (c : Option LocalCode) : GoErr :=
  match err with
  | .node e s t _ => .node e s t c
  | e => e

/-- The `New(text)` (part_029 lines 73-79); `st` models the `callers()`
capture. -/
def New (st : Stack) (text : String) : GoErr :=
  .node .nil st text (some CodeNil)

/-- The `Newf(format, args...)` (part_029 lines 82-88); `formatted` is the
`fmt.Sprintf(format, args...)` result. -/
def Newf (st : Stack) (formatted : String) : GoErr :=
  .node .nil st formatted (some CodeNil)

/-- The `NewSkip(skip, text)` (part_029 lines 92-98); `st` models
`callers(skip)`. -/
def NewSkip (st : Stack) (skip : Int) (text : String) : GoErr :=
  .node .nil st text (some CodeNil)

/-- The `NewSkipf(skip, format, args...)` (part_029 lines 102-108). -/
def NewSkipf (st : Stack) (skip : Int) (formatted : String) : GoErr :=
  .node .nil st formatted (some CodeNil)

/-- The `Wrap(err, text)` (part_029 lines 112-122): nil gives nil, otherwise a
node wrapping `err`, capturing stack `st` and inheriting `Code(err)`. -/
def Wrap (st : Stack) (err : GoErr) (text : String) : GoErr :=
  match err with
  | .nil => .nil
  | e => .node e st text (CodeFn e)

/-- The `Wrapf(err, format, args...)` (part_029 lines 126-136). -/
def Wrapf (st : Stack) (err : GoErr) (formatted : String) : GoErr :=
  match err with
  | .nil => .nil
  | e => .node e st formatted (CodeFn e)

/-- The `WrapSkip(skip, err, text)` (part_029 lines 141-151). -/
def WrapSkip (st : Stack) (skip : Int) (err : GoErr) (text : String) : GoErr :=
  match err with
  | .nil => .nil
  | e => .node e st text (CodeFn e)

/-- The `WrapSkipf(skip, err, format, args...)` (part_029 lines 156-166). -/
def WrapSkipf (st : Stack) (skip : Int) (err : GoErr) (formatted : String) : GoErr :=
  match err with
  | .nil => .nil
  | e => .node e st formatted (CodeFn e)

/-- The `NewCode(code, text...)` (part_027 lines 46-52): the variadic texts are
joined with `", "`. -/
def NewCode (st : Stack) (c : Option LocalCode) (text : List String) : GoErr :=
  .node .nil st (String.intercalate commaSeparatorSpace text) c

/-- The `NewCodef(code, format, args...)` (part_027 lines 55-61). -/
def NewCodef (st : Stack) (c : Option LocalCode) (formatted : String) : GoErr :=
  .node .nil st formatted c

/-- The `WrapCode(code, err, text...)` (part_027 lines 85-95). -/
def WrapCode (st : Stack) (c : Option LocalCode) (err : GoErr) (text : List String) : GoErr :=
  match err with
  | .nil => .nil
  | e => .node e st (String.intercalate commaSeparatorSpace text) c

/-- The `WrapCodef(code, err, format, args...)` (part_027 lines 99-109). -/
def WrapCodef (st : Stack) (c : Option LocalCode) (err : GoErr) (formatted : String) : GoErr :=
  match err with
  | .nil => .nil
  | e => .node e st formatted c

/-- The `WrapCodeSkip(code, skip, err, text...)` (part_027 lines 113-123). -/
def WrapCodeSkip (st : Stack) (c : Option LocalCode) (skip : Int) (err : GoErr) (text : List String) : GoErr :=
  match err with
  | .nil => .nil
  | e => .node e st (String.intercalate commaSeparatorSpace text) c

/-- The `WrapCodeSkipf(code, skip, err, format, args...)` (part_027 lines
127-137). -/
def WrapCodeSkipf (st : Stack) (c : Option LocalCode) (skip : Int) (err : GoErr) (formatted : String) : GoErr :=
  match err with
  | .nil => .nil
  | e => .node e st formatted c

/-- Whether the dynamic type of the value carries an `Equal(target) bool`
method (only the `extEqualer` external type does; `*Error` has none). -/
def hasEqualMethod : GoErr → Bool
  | .extEqualer _ _ => true
  | _ => false

/-- The `Equal(target error) bool` method of an `extEqualer` (a constant
comparator); `false` on types without the method (never dispatched). -/
def EqualMethodOf : GoErr → GoErr → Bool
  | .extEqualer _ b, _ => b
  | _, _ => false

/-- Package-level `Equal` (api_stack.go lines 80-91): identity first, then
the `Equaler` method on `err`, then the one on `target`, else false. -/
def EqualFn (err target : GoErr) : Bool :=
  if err = target then true
  else
    match err, target with
    | .extEqualer m b, _ => EqualMethodOf (.extEqualer m b) target
    | _, .extEqualer m b => EqualMethodOf (.extEqualer m b) err
    | _, _ => false

/-- The `stackFilterKeyLocal` (handler.go line 26): the error module's own
path. -/
def stackFilterKeyLocal : String := "/pkg/errors/errors"

/-- The `config.StackFilterKeyForLoom` (internal/config): the framework path
filtered in brief mode. -/
def StackFilterKeyForLoom : String := "github.com/focela/loom/"

/-- Whether `sub` occurs contiguously in the character list. -/
def listContains (sub : List Char) : List Char → Bool
  | [] => sub.isEmpty
  | c :: rest => sub.isPrefixOf (c :: rest) || listContains sub rest

/-- The `strings.Contains(s, sub)`. -/
def strContains (s sub : String) : Bool :=
  listContains sub.data s.data

/-- The `strings.HasPrefix(s, pre)`. -/
def strStartsWith (s pre : String) : Bool :=
  pre.data.isPrefixOf s.data

/-- The `stackLine` (handler_stack.go lines 27-30): function name and the
rendered `"file:line"`. -/
structure StackLine where
  function : String
  fileLine : String
deriving DecidableEq, Repr

/-- The `stackInfo` (handler_stack.go lines 20-24); the `container/list.List`
of lines is modelled as a Lean list. -/
structure StackInfo where
  index : Nat
  message : String
  lines : List StackLine
deriving DecidableEq, Repr

/-- The skip conditions of `loopLinesOfStackInfo` (handler_stack.go lines
81-90): a resolved frame is dropped when brief mode filters the framework
path, when the file matches the package's own path or contains `"<"`, or
when it lies under the normalized `GOROOT` (when that is non-empty). -/
def skipStackFrame (brief : Bool) (goRoot : String) (f : Frame) : Bool :=
  (brief && strContains f.file StackFilterKeyForLoom)
    || strContains f.file stackFilterKeyLocal
    || strContains f.file "<"
    || (goRoot != "" && strStartsWith f.file goRoot)

/-- The `stackLine` built for a kept frame (handler_stack.go lines 96-99):
`Function` and `FileLine = fmt.Sprintf("%s:%d", file, line)`. -/
def mkStackLine (f : Frame) : StackLine :=
  ⟨f.function, f.file ++ ":" ++ toString f.line⟩

/-- The `loopLinesOfStackInfo` (handler_stack.go lines 72-102): unresolvable
PCs are skipped, the filter conditions are applied, and the surviving
frames are rendered as stack lines in order. -/
def loopLinesOfStackInfo (brief : Bool) (goRoot : String) (st : Stack) : List StackLine :=
  ((st.filterMap id).filter (fun f => !(skipStackFrame brief goRoot f))).map mkStackLine

/-- The stack walk of `(*Error).Stack` (handler_stack.go lines 38-65): one
`stackInfo` per `*Error` of the chain, whose message is
`fmt.Sprintf("%v", loop)` (= the error string) and whose lines come from
`loopLinesOfStackInfo` on that node's captured stack; when the chain ends
in a non-nil non-`*Error` error a final line-less info carrying its
message is appended. -/
def stackInfosOf (brief : Bool) (goRoot : String) : GoErr → Nat → List StackInfo
  | .node error st text code, index =>
      let info : StackInfo :=
        ⟨index, GoErr.errString (.node error st text code), loopLinesOfStackInfo brief goRoot st⟩
      match error with
      | .node _ _ _ _ => info :: stackInfosOf brief goRoot error (index + 1)
      | .nil => [info]
      | ext => [info, ⟨index + 1, ext.errString, []⟩]
  | _, _ => []

/-- One info's pass of `filterLinesOfStackInfos` (handler_stack.go lines
114-127): lines whose `FileLine` is already in the seen set are removed,
fresh ones are kept and recorded. -/
def dedupLines : List StackLine → List String → List StackLine × List String
  | [], seen => ([], seen)
  | l :: rest, seen =>
      if l.fileLine ∈ seen then dedupLines rest seen
      else
        let p := dedupLines rest (l.fileLine :: seen)
        (l :: p.1, p.2)

/-- The traversal order of `filterLinesOfStackInfos` (handler_stack.go
line 108): infos are processed from the last to the first, threading the
seen set, and returned in their original order. -/
def dedupInfosRev : List StackInfo → List String → List StackInfo × List String
  | [], seen => ([], seen)
  | info :: rest, seen =>
      let p := dedupInfosRev rest seen
      let q := dedupLines info.lines p.2
      (⟨info.index, info.message, q.1⟩ :: p.1, q.2)

/-- The `filterLinesOfStackInfos` (handler_stack.go lines 105-129): removes
duplicate `FileLine`s across the stacks, later infos taking precedence. -/
def filterLinesOfStackInfos (infos : List StackInfo) : List StackInfo :=
  (dedupInfosRev infos []).1

/-- One line of `formatStackLines` (handler_stack.go lines 147-157): the
separating space shrinks once the index reaches 9. -/
def formatOneStackLine (i : Nat) (l : StackLine) : String :=
  let space := if i ≥ 9 then " " else "  "
  "   " ++ toString (i + 1) ++ ")." ++ space ++ l.function ++ "\n        " ++ l.fileLine ++ "\n"

/-- The `formatStackLines` (handler_stack.go lines 145-159). -/
def formatStackLines (lines : List StackLine) : String :=
  String.join (lines.enum.map (fun p => formatOneStackLine p.1 p.2))

/-- The `formatStackInfos` (handler_stack.go lines 132-142): each info prints
`"<i+1>. <message>\n"` followed by its lines when it has any. -/
def formatStackInfos (infos : List StackInfo) : String :=
  String.join (infos.enum.map (fun p =>
    toString (p.1 + 1) ++ ". " ++ p.2.message ++ "\n" ++
      (if p.2.lines.length > 0 then formatStackLines p.2.lines else "")))

/-- The `(*Error).Stack` (handler_stack.go lines 33-69): empty string on a nil
receiver, otherwise the formatted, deduplicated stack infos of the chain. -/
def ErrStackMethod (brief : Bool) (goRoot : String) : GoErr → String
  | .node e s t c =>
      formatStackInfos (filterLinesOfStackInfos (stackInfosOf brief goRoot (.node e s t c) 1))
  | _ => ""

/-- The `(*Error).Format` (part_026 lines 288-312) for the `s`/`v` verbs
(other verbs produce no output); `minus`/`plus` are the `-`/`+` flags. -/
def ErrFormatMethod (brief : Bool) (goRoot : String) (minus plus : Bool) (verb : Char) : GoErr → String
  | .node e s t c =>
      if verb = 's' ∨ verb = 'v' then
        if minus then
          (if t ≠ "" then t else GoErr.errString (.node e s t c))
        else if plus then
          (if verb = 's' then ErrStackMethod brief goRoot (.node e s t c)
           else GoErr.errString (.node e s t c) ++ "\n" ++ ErrStackMethod brief goRoot (.node e s t c))
        else GoErr.errString (.node e s t c)
      else ""
  | _ => ""

/-- The `fmt.Sprintf` with a single error operand and an `s`/`v` verb: a nil
error prints `<nil>`, a `*Error` dispatches to its `Format` method, a
plain external error prints its message for every flag combination. -/
def sprintfErr (brief : Bool) (goRoot : String) (minus plus : Bool) (verb : Char) : GoErr → String
  | .nil => "<nil>"
  | .extErr m => m
  | .extEqualer m _ => m
  | .node e s t c => ErrFormatMethod brief goRoot minus plus verb (.node e s t c)

/-- Iterated wrapping: applies `Wrap` once per `(stack, text)` layer. -/
def wrapMany (layers : List (Stack × String)) (err : GoErr) : GoErr :=
  layers.foldl (fun acc p => Wrap p.1 acc p.2) err

/-- The chain carries no code: every `*Error` node's code field holds the
`CodeNil` sentinel (as the `New*` constructors set it). -/
def noCodeChain : GoErr → Bool
  | .node error _ _ code => (code == some CodeNil) && noCodeChain error
  | _ => true

/-- The per-level display texts of a chain: each `*Error` contributes its
text, or its code's message when the text is empty and a code is attached
(the first two lines of `(*Error).Error`); a terminal external error
contributes its message. -/
def chainDisplays : GoErr → List String
  | .nil => []
  | .node error _ text code =>
      (if text = "" ∧ code.isSome then (code.getD CodeNil).message else text) :: chainDisplays error
  | .extErr m => [m]
  | .extEqualer m _ => [m]

/-- The captured stacks of all `*Error` nodes of a chain (the stacks the
walk of `(*Error).Stack` resolves). -/
def chainStacks : GoErr → List Stack
  | .node error st _ _ => st :: chainStacks error
  | _ => []

/-! ## Helper lemmas -/

/-- On this universe the package-level `Code` and the `(*Error).Code`
method agree on every value. -/
theorem CodeFn_eq_ErrCodeMethod (e : GoErr) : CodeFn e = ErrCodeMethod e := by
  cases e <;> rfl

/-- Wrapping a non-nil error never gives nil. -/
theorem wrap_ne_nil (st : Stack) (e : GoErr) (t : String) (h : e ≠ GoErr.nil) :
    Wrap st e t ≠ GoErr.nil := by
  cases e with
  | nil => exact absurd rfl h
  | node e2 s2 t2 c2 => simp [Wrap]
  | extErr m => simp [Wrap]
  | extEqualer m b => simp [Wrap]

/-- The `Code` looks through one `Wrap` layer: the wrapping node stores
`Code(err)`, so the lookup result is unchanged. -/
theorem codeFn_wrap (st : Stack) (t : String) (e : GoErr) (h : e ≠ GoErr.nil) :
    CodeFn (Wrap st e t) = CodeFn e := by
  cases e with
  | nil => exact absurd rfl h
  | node e2 s2 t2 c2 => simp [Wrap, CodeFn, ErrCodeMethod]
  | extErr m => simp [Wrap, CodeFn, ErrCodeMethod]
  | extEqualer m b => simp [Wrap, CodeFn, ErrCodeMethod]

/-- The `Code` looks through any number of `Wrap` layers. -/
theorem codeFn_wrapMany : ∀ (layers : List (Stack × String)) (e : GoErr), e ≠ GoErr.nil →
    wrapMany layers e ≠ GoErr.nil ∧ CodeFn (wrapMany layers e) = CodeFn e
  | [], e, h => ⟨h, rfl⟩
  | (st, t) :: rest, e, h => by
      have hw := wrap_ne_nil st e t h
      have ih := codeFn_wrapMany rest (Wrap st e t) hw
      have hc := codeFn_wrap st t e h
      have hm : wrapMany ((st, t) :: rest) e = wrapMany rest (Wrap st e t) := by
        simp [wrapMany, List.foldl_cons]
      exact ⟨hm ▸ ih.1, by rw [hm, ih.2, hc]⟩

/-- A chain whose nodes all carry the `CodeNil` sentinel resolves to
`CodeNil`. -/
theorem noCodeChain_codeNil : ∀ (e : GoErr), noCodeChain e = true → CodeFn e = some CodeNil
  | GoErr.nil, _ => rfl
  | GoErr.extErr _, _ => rfl
  | GoErr.extEqualer _ _, _ => rfl
  | GoErr.node error st t code, h => by
      simp only [noCodeChain, Bool.and_eq_true, beq_iff_eq] at h
      have ih := noCodeChain_codeNil error h.2
      rw [CodeFn_eq_ErrCodeMethod] at ih
      simp [CodeFn, ErrCodeMethod, h.1, ih]

/-- The `String.intercalate.go` peels off a left factor of its accumulator. -/
theorem intercalate_go_append (s : String) :
    ∀ (l : List String) (acc1 acc2 : String),
      String.intercalate.go (acc1 ++ acc2) s l = acc1 ++ String.intercalate.go acc2 s l
  | [], acc1, acc2 => rfl
  | a :: as, acc1, acc2 => by
      show String.intercalate.go (acc1 ++ acc2 ++ s ++ a) s as = _
      rw [String.append_assoc, String.append_assoc, ← String.append_assoc acc2 s a]
      rw [intercalate_go_append s as acc1 (acc2 ++ s ++ a)]
      rfl

/-- The `String.intercalate` on a list with at least two elements. -/
theorem intercalate_cons (s a : String) (l : List String) (h : l ≠ []) :
    String.intercalate s (a :: l) = a ++ s ++ String.intercalate s l := by
  cases l with
  | nil => exact absurd rfl h
  | cons b bs =>
      calc String.intercalate s (a :: b :: bs)
          = String.intercalate.go ((a ++ s) ++ b) s bs := rfl
        _ = (a ++ s) ++ String.intercalate.go b s bs := intercalate_go_append s bs (a ++ s) b
        _ = a ++ s ++ String.intercalate s (b :: bs) := rfl

/-- A non-nil error contributes at least one display text. -/
theorem chainDisplays_ne_nil : ∀ (e : GoErr), e ≠ GoErr.nil → chainDisplays e ≠ []
  | GoErr.nil, h => absurd rfl h
  | GoErr.node _ _ _ _, _ => by simp [chainDisplays]
  | GoErr.extErr _, _ => by simp [chainDisplays]
  | GoErr.extEqualer _ _, _ => by simp [chainDisplays]

/-- Every line produced by `loopLinesOfStackInfo` is the rendering of a
resolved frame of the captured stack that passed the filter. -/
theorem loopLines_mem (brief : Bool) (goRoot : String) (st : Stack) (l : StackLine)
    (h : l ∈ loopLinesOfStackInfo brief goRoot st) :
    ∃ f : Frame, some f ∈ st ∧ skipStackFrame brief goRoot f = false ∧ l = mkStackLine f := by
  simp only [loopLinesOfStackInfo, List.mem_map, List.mem_filter, List.mem_filterMap,
    id_eq, Bool.not_eq_true'] at h
  obtain ⟨f, ⟨⟨fo, hfo, hid⟩, hskip⟩, hl⟩ := h
  exact ⟨f, hid ▸ hfo, hskip, hl.symm⟩

/-- Every info of the stack walk either has no lines (the terminal info of
a chain ending in an external error) or carries exactly the filtered lines
of one of the chain's captured stacks. -/
theorem stackInfosOf_lines : ∀ (e : GoErr) (brief : Bool) (goRoot : String) (index : Nat)
    (info : StackInfo), info ∈ stackInfosOf brief goRoot e index →
    info.lines = [] ∨ ∃ st ∈ chainStacks e, info.lines = loopLinesOfStackInfo brief goRoot st
  | GoErr.nil, _, _, _, _, h => absurd h (by simp [stackInfosOf])
  | GoErr.extErr _, _, _, _, _, h => absurd h (by simp [stackInfosOf])
  | GoErr.extEqualer _ _, _, _, _, _, h => absurd h (by simp [stackInfosOf])
  | GoErr.node error st t code, brief, goRoot, index, info, h => by
      cases error with
      | nil =>
          rcases List.mem_cons.mp h with h1 | h2
          · subst h1; exact Or.inr ⟨st, by simp [chainStacks], rfl⟩
          · exact absurd h2 (List.not_mem_nil _)
      | node e2 s2 t2 c2 =>
          rcases List.mem_cons.mp h with h1 | h2
          · subst h1; exact Or.inr ⟨st, by simp [chainStacks], rfl⟩
          · rcases stackInfosOf_lines (GoErr.node e2 s2 t2 c2) brief goRoot (index + 1) info h2
              with hn | ⟨st2, hst2, hl2⟩
            · exact Or.inl hn
            · exact Or.inr ⟨st2, by simp only [chainStacks]; exact List.mem_cons_of_mem _ hst2, hl2⟩
      | extErr m =>
          rcases List.mem_cons.mp h with h1 | h2
          · subst h1; exact Or.inr ⟨st, by simp [chainStacks], rfl⟩
          · rcases List.mem_cons.mp h2 with h3 | h4
            · subst h3; exact Or.inl rfl
            · exact absurd h4 (List.not_mem_nil _)
      | extEqualer m b =>
          rcases List.mem_cons.mp h with h1 | h2
          · subst h1; exact Or.inr ⟨st, by simp [chainStacks], rfl⟩
          · rcases List.mem_cons.mp h2 with h3 | h4
            · subst h3; exact Or.inl rfl
            · exact absurd h4 (List.not_mem_nil _)

/-- The dedup pass only removes lines. -/
theorem dedupLines_subset : ∀ (ls : List StackLine) (seen : List String) (l : StackLine),
    l ∈ (dedupLines ls seen).1 → l ∈ ls
  | [], seen, l, h => absurd h (by simp [dedupLines])
  | x :: rest, seen, l, h => by
      by_cases hx : x.fileLine ∈ seen
      · simp only [dedupLines, if_pos hx] at h
        exact List.mem_cons_of_mem _ (dedupLines_subset rest seen l h)
      · simp only [dedupLines, if_neg hx] at h
        rcases List.mem_cons.mp h with h1 | h2
        · exact h1 ▸ List.mem_cons_self _ _
        · exact List.mem_cons_of_mem _ (dedupLines_subset rest _ l h2)

/-- Every info surviving the dedup pass descends from an input info, and
its lines are among that input info's lines. -/
theorem dedupInfosRev_lines : ∀ (infos : List StackInfo) (seen : List String)
    (info : StackInfo), info ∈ (dedupInfosRev infos seen).1 →
    ∃ info0 ∈ infos, ∀ l ∈ info.lines, l ∈ info0.lines
  | [], seen, info, h => absurd h (by simp [dedupInfosRev])
  | i :: rest, seen, info, h => by
      simp only [dedupInfosRev] at h
      rcases List.mem_cons.mp h with h1 | h2
      · subst h1
        refine ⟨i, List.mem_cons_self _ _, ?_⟩
        intro l hl
        exact dedupLines_subset _ _ _ hl
      · obtain ⟨info0, hmem, hsub⟩ := dedupInfosRev_lines rest seen info h2
        exact ⟨info0, List.mem_cons_of_mem _ hmem, hsub⟩

/-- A frame that passes the filter matches none of the filtered paths. -/
theorem skip_false_conditions (brief : Bool) (goRoot : String) (f : Frame)
    (h : skipStackFrame brief goRoot f = false) :
    strContains f.file stackFilterKeyLocal = false ∧
    (goRoot ≠ "" → strStartsWith f.file goRoot = false) ∧
    (brief = true → strContains f.file StackFilterKeyForLoom = false) := by
  simp only [skipStackFrame, Bool.or_eq_false_iff, Bool.and_eq_false_iff] at h
  obtain ⟨⟨⟨h1, h2⟩, h3⟩, h4⟩ := h
  refine ⟨h2, ?_, ?_⟩
  · intro hg
    rcases h4 with h4 | h4
    · exact absurd (by simpa using h4) hg
    · exact h4
  · intro hb
    rcases h1 with h1 | h1
    · exact absurd h1 (by simp [hb])
    · exact h1

/-- The accumulator never shrinks under a left fold of appends. -/
theorem length_le_foldl_append : ∀ (l : List String) (a : String),
    a.length ≤ (List.foldl (fun r s => r ++ s) a l).length
  | [], _ => le_refl _
  | x :: xs, a =>
      le_trans (by simp only [String.length_append]; omega)
        (length_le_foldl_append xs (a ++ x))

/-- The `formatStackInfos` on a non-empty info list is non-empty: the first
info alone prints at least `"1. ...\n"`. -/
theorem formatStackInfos_ne_empty (i : StackInfo) (is : List StackInfo) :
    formatStackInfos (i :: is) ≠ "" := by
  intro hc
  have hstep : formatStackInfos (i :: is) =
      List.foldl (fun r s => r ++ s)
        ("" ++ (toString (0 + 1) ++ ". " ++ i.message ++ "\n" ++
          (if i.lines.length > 0 then formatStackLines i.lines else "")))
        ((is.enumFrom 1).map (fun p =>
          toString (p.1 + 1) ++ ". " ++ p.2.message ++ "\n" ++
            (if p.2.lines.length > 0 then formatStackLines p.2.lines else ""))) := rfl
  have hle := length_le_foldl_append
    ((is.enumFrom 1).map (fun p =>
      toString (p.1 + 1) ++ ". " ++ p.2.message ++ "\n" ++
        (if p.2.lines.length > 0 then formatStackLines p.2.lines else "")))
    ("" ++ (toString (0 + 1) ++ ". " ++ i.message ++ "\n" ++
      (if i.lines.length > 0 then formatStackLines i.lines else "")))
  rw [← hstep, hc] at hle
  have h1 : (toString (0 + 1) : String).length = 1 := rfl
  have h2 : ((". " : String)).length = 2 := rfl
  have h3 : (("\n" : String)).length = 1 := rfl
  have h0 : (("" : String)).length = 0 := rfl
  simp only [String.length_append, h1, h2, h3, h0] at hle
  omega

/-- The dedup pass preserves the cons shape of the info list. -/
theorem filterLines_cons (i : StackInfo) (is : List StackInfo) :
    filterLinesOfStackInfos (i :: is) =
      ⟨i.index, i.message, (dedupLines i.lines (dedupInfosRev is []).2).1⟩ ::
        (dedupInfosRev is []).1 := rfl

/-- The stack walk of a node always produces at least one info. -/
theorem stackInfosOf_cons (brief : Bool) (goRoot : String) (error : GoErr) (st : Stack)
    (t : String) (code : Option LocalCode) (index : Nat) :
    ∃ info rest, stackInfosOf brief goRoot (GoErr.node error st t code) index = info :: rest := by
  cases error with
  | nil => exact ⟨_, _, rfl⟩
  | node e2 s2 t2 c2 => exact ⟨_, _, rfl⟩
  | extErr m => exact ⟨_, _, rfl⟩
  | extEqualer m b => exact ⟨_, _, rfl⟩

/-! ## Claims -/

/-- C1: for every string text (and every format/args, modelled by the
formatted result), each wrapping constructor `Wrap`, `Wrapf`, `WrapSkip`,
`WrapSkipf`, `WrapCode`, `WrapCodef`, `WrapCodeSkip`, `WrapCodeSkipf`
returns nil (and, being a total Lean function, does not panic) when its
error argument is nil. -/
theorem c1_wrap_nil_gives_nil (st : Stack) (text formatted : String) (skip : Int)
    (texts : List String) (c : Option LocalCode) :
    Wrap st .nil text = .nil ∧ Wrapf st .nil formatted = .nil ∧
    WrapSkip st skip .nil text = .nil ∧ WrapSkipf st skip .nil formatted = .nil ∧
    WrapCode st c .nil texts = .nil ∧ WrapCodef st c .nil formatted = .nil ∧
    WrapCodeSkip st c skip .nil texts = .nil ∧ WrapCodeSkipf st c skip .nil formatted = .nil :=
  ⟨rfl, rfl, rfl, rfl, rfl, rfl, rfl, rfl⟩

/-- C2: `Code(NewCode(CodeNotFound, "x"))` is `CodeNotFound`, and it
stays `CodeNotFound` after any number of `Wrap` layers; on every error
whose chain carries no code (every node's code field is the `CodeNil`
sentinel, as `New` sets it) `Code` returns the `CodeNil` sentinel. -/
theorem c2_code_chain_lookup (st : Stack) (texts : List String)
    (layers : List (Stack × String)) (e : GoErr) (h : noCodeChain e = true) :
    CodeFn (NewCode st (some CodeNotFound) texts) = some CodeNotFound ∧
    CodeFn (wrapMany layers (NewCode st (some CodeNotFound) texts)) = some CodeNotFound ∧
    CodeFn e = some CodeNil := by
  have h1 : CodeFn (NewCode st (some CodeNotFound) texts) = some CodeNotFound := rfl
  have hne : NewCode st (some CodeNotFound) texts ≠ GoErr.nil := by simp [NewCode]
  exact ⟨h1, by rw [(codeFn_wrapMany layers _ hne).2, h1], noCodeChain_codeNil e h⟩

/-- Witness for C2 at concrete inputs. -/
theorem c2_code_chain_lookup_witness :
    CodeFn (NewCode [] (some CodeNotFound) ["x"]) = some CodeNotFound ∧
    CodeFn (wrapMany [([], "y")] (NewCode [] (some CodeNotFound) ["x"])) = some CodeNotFound ∧
    CodeFn (New [] "a") = some CodeNil :=
  c2_code_chain_lookup [] ["x"] [([], "y")] (New [] "a") (by decide)

/-- C3, counterexample: on the chain `Wrap(Wrap(New("a"),"b"),"c")`
(stacks are irrelevant to `Cause`), `Cause` does *not* return the
innermost error `New("a")`: handler.go line 78 returns a freshly created
`errors.New(loop.text)` instead of the leaf `*Error` itself. -/
theorem c3_cause_counterexample :
    CauseFn (Wrap [] (Wrap [] (New [] "a") "b") "c") = GoErr.extErr "a" ∧
    CauseFn (Wrap [] (Wrap [] (New [] "a") "b") "c") ≠ New [] "a" :=
  ⟨rfl, by decide⟩

/-- C3, amended: `Cause` walks the chain of wrapped errors to the
innermost non-wrapping error; when that leaf is itself a `*Error` (as in
`Cause(Wrap(Wrap(New("a"),"b"),"c"))`) the result is a freshly created
plain error carrying the leaf's message "a" — not the leaf error value
itself; when the chain ends in a non-`*Error` error, that error value is
returned as is. -/
theorem c3_cause_amended (st1 st2 st3 st : Stack) (a b c m t : String) :
    CauseFn (Wrap st3 (Wrap st2 (New st1 a) b) c) = GoErr.extErr a ∧
    CauseFn (Wrap st (GoErr.extErr m) t) = GoErr.extErr m :=
  ⟨rfl, rfl⟩

/-- C4: for every non-nil error and every text, unwrapping a wrap
returns the original error value. -/
theorem c4_unwrap_wrap_roundtrip (st : Stack) (e : GoErr) (text : String)
    (h : e ≠ GoErr.nil) :
    UnwrapFn (Wrap st e text) = e := by
  cases e with
  | nil => exact absurd rfl h
  | node e2 s2 t2 c2 => rfl
  | extErr m => rfl
  | extEqualer m b => rfl

/-- Unfolding of `(*Error).Error` on a node with a non-nil wrapped error:
the display text (text, or the code's message when the text is empty and a
code is attached), then `": "` and the wrapped error's message when the
display text is non-empty. -/
theorem errString_node (inner : GoErr) (st : Stack) (t : String) (code : Option LocalCode)
    (h : inner ≠ GoErr.nil) :
    GoErr.errString (GoErr.node inner st t code) =
      (if (if t = "" ∧ code.isSome then (code.getD CodeNil).message else t) ≠ ""
       then (if t = "" ∧ code.isSome then (code.getD CodeNil).message else t) ++ ": " ++
         GoErr.errString inner
       else GoErr.errString inner) := by
  cases inner with
  | nil => exact absurd rfl h
  | node e2 s2 t2 c2 => rfl
  | extErr m => rfl
  | extEqualer m b => rfl

/-- C5: on every non-nil error chain each of whose levels has a
non-empty display text (the level's message text, or — when that text is
empty and a code is attached — the code's message, used in its place),
`Error()` returns the display texts joined with `": "`, outermost level
first. -/
theorem c5_error_string_joined : ∀ (e : GoErr), e ≠ GoErr.nil →
    (∀ d ∈ chainDisplays e, d ≠ "") →
    GoErr.errString e = String.intercalate ": " (chainDisplays e)
  | GoErr.nil, h, _ => absurd rfl h
  | GoErr.extErr m, _, _ => rfl
  | GoErr.extEqualer m b, _, _ => rfl
  | GoErr.node error st t code, _, hd => by
      have hD : (if t = "" ∧ code.isSome then (code.getD CodeNil).message else t) ≠ "" :=
        hd _ (by simp [chainDisplays])
      by_cases hnil : error = GoErr.nil
      · subst hnil; rfl
      · have hd2 : ∀ d ∈ chainDisplays error, d ≠ "" := fun d hdm =>
          hd d (by simp only [chainDisplays, List.mem_cons]; exact Or.inr hdm)
        have ih := c5_error_string_joined error hnil hd2
        rw [show chainDisplays (GoErr.node error st t code) =
              (if t = "" ∧ code.isSome then (code.getD CodeNil).message else t) ::
                chainDisplays error from rfl,
          intercalate_cons ": " _ _ (chainDisplays_ne_nil error hnil), ← ih,
          errString_node error st t code hnil, if_pos hD]

/-- Witness for C5 on a concrete two-level chain whose inner level has an
empty text and an attached code (so the code's message is displayed). -/
theorem c5_error_string_joined_witness :
    GoErr.errString (GoErr.node (GoErr.node GoErr.nil [] "" (some CodeNotFound)) [] "b" none)
      = "b: Not Found" :=
  (c5_error_string_joined
      (GoErr.node (GoErr.node GoErr.nil [] "" (some CodeNotFound)) [] "b" none)
      (by decide) (by decide)).trans rfl

/-- Witness for C4 at a concrete input. -/
theorem c4_unwrap_wrap_roundtrip_witness :
    UnwrapFn (Wrap [] (GoErr.extErr "x") "t") = GoErr.extErr "x" :=
  c4_unwrap_wrap_roundtrip [] (GoErr.extErr "x") "t" (by decide)

/-- C6: every stack line of the (deduplicated) stack infos that
`.Stack()` renders originates from a resolved frame of one of the chain's
captured stacks that passed the filter: in particular its file path does
not contain the error library's own internal path
(`stackFilterKeyLocal`), does not lie under a non-empty GOROOT, and in
brief mode does not contain the framework-internal path.  (`.Stack()` on a
node is by definition `formatStackInfos` of exactly these infos.) -/
theorem c6_stack_filters_internal_frames (brief : Bool) (goRoot : String) (e : GoErr)
    (index : Nat) (info : StackInfo) (l : StackLine)
    (hinfo : info ∈ filterLinesOfStackInfos (stackInfosOf brief goRoot e index))
    (hl : l ∈ info.lines) :
    ∃ (st : Stack) (f : Frame), st ∈ chainStacks e ∧ some f ∈ st ∧ l = mkStackLine f ∧
      strContains f.file stackFilterKeyLocal = false ∧
      (goRoot ≠ "" → strStartsWith f.file goRoot = false) ∧
      (brief = true → strContains f.file StackFilterKeyForLoom = false) := by
  obtain ⟨info0, hmem0, hsub⟩ := dedupInfosRev_lines _ [] info hinfo
  have hl0 := hsub l hl
  rcases stackInfosOf_lines e brief goRoot index info0 hmem0 with hnil | ⟨st, hst, hlines⟩
  · rw [hnil] at hl0
    exact absurd hl0 (List.not_mem_nil l)
  · rw [hlines] at hl0
    obtain ⟨f, hfmem, hskip, hlf⟩ := loopLines_mem brief goRoot st l hl0
    obtain ⟨hc1, hc2, hc3⟩ := skip_false_conditions brief goRoot f hskip
    exact ⟨st, f, hst, hfmem, hlf, hc1, hc2, hc3⟩

/-- Witness for C6 on a concrete one-frame error in brief mode. -/
theorem c6_stack_filters_internal_frames_witness :
    ∃ (st : Stack) (f : Frame),
      st ∈ chainStacks (New [some ⟨"main.f", "/app/a.go", 7⟩] "a") ∧
      some f ∈ st ∧ (⟨"main.f", "/app/a.go:7"⟩ : StackLine) = mkStackLine f ∧
      strContains f.file stackFilterKeyLocal = false ∧
      (("/go" : String) ≠ "" → strStartsWith f.file "/go" = false) ∧
      (true = true → strContains f.file StackFilterKeyForLoom = false) :=
  c6_stack_filters_internal_frames true "/go" (New [some ⟨"main.f", "/app/a.go", 7⟩] "a") 1
    ⟨1, "a", [⟨"main.f", "/app/a.go:7"⟩]⟩ ⟨"main.f", "/app/a.go:7"⟩ (by decide) (by decide)

/-- C7: `fmt.Sprintf("%-v", Wrap(New("a"),"b"))` prints exactly "b"
(for all captured stacks, stack modes and GOROOTs); `%+v` prints the full
error string, a newline, and the `.Stack()` section, which on a non-nil
`*Error` is never empty (its message lines are present even when stack
capture produced no resolvable frames). -/
theorem c7_format_flags (brief : Bool) (goRoot : String) (st1 st2 : Stack)
    (error : GoErr) (st : Stack) (t : String) (code : Option LocalCode) :
    sprintfErr brief goRoot true false 'v' (Wrap st2 (New st1 "a") "b") = "b" ∧
    sprintfErr brief goRoot false true 'v' (GoErr.node error st t code) =
      GoErr.errString (GoErr.node error st t code) ++ "\n" ++
        ErrStackMethod brief goRoot (GoErr.node error st t code) ∧
    ErrStackMethod brief goRoot (GoErr.node error st t code) ≠ "" := by
  refine ⟨rfl, rfl, ?_⟩
  obtain ⟨info, rest, hsi⟩ := stackInfosOf_cons brief goRoot error st t code 1
  show formatStackInfos (filterLinesOfStackInfos
    (stackInfosOf brief goRoot (GoErr.node error st t code) 1)) ≠ ""
  rw [hsi, filterLines_cons]
  exact formatStackInfos_ne_empty _ _

/-- C8, counterexample: `Error` values are *not* immutable after
construction: the exported `SetCode` method (part_027 lines 25-30) changes
the error code of an existing value in place, as witnessed on a node built
with code `CodeNotFound` whose code `SetCode` replaces by `CodeOK`. -/
theorem c8_immutability_counterexample :
    ErrSetCode (GoErr.node .nil [] "x" (some CodeNotFound)) (some CodeOK)
        ≠ GoErr.node .nil [] "x" (some CodeNotFound) ∧
    ErrCodeMethod (ErrSetCode (GoErr.node .nil [] "x" (some CodeNotFound)) (some CodeOK))
        = some CodeOK :=
  ⟨by decide, rfl⟩

/-- C8, amended: after construction the wrapped-error reference, the
stack capture and the message text of an `Error` are never changed by any
exported operation; the error code alone is mutable, through the exported
`SetCode` method, which replaces exactly the code field (and is a no-op on
a nil receiver). -/
theorem c8_immutability_amended (inner : GoErr) (st : Stack) (t : String)
    (c c' : Option LocalCode) :
    ErrSetCode (GoErr.node inner st t c) c' = GoErr.node inner st t c' ∧
    ErrSetCode GoErr.nil c' = GoErr.nil :=
  ⟨rfl, rfl⟩

/-- C9, counterexample: `Equal` does *not* delegate to a present
custom comparator first: api_stack.go line 81 checks identity before the
`Equaler` dispatch, so on an external error whose `Equal` method returns
`false` even on itself, `Equal(e, e)` returns `true` where the delegated
comparator returns `false`. -/
theorem c9_equal_counterexample :
    hasEqualMethod (GoErr.extEqualer "m" false) = true ∧
    EqualMethodOf (GoErr.extEqualer "m" false) (GoErr.extEqualer "m" false) = false ∧
    EqualFn (GoErr.extEqualer "m" false) (GoErr.extEqualer "m" false) = true :=
  ⟨rfl, rfl, by decide⟩

/-- C9, amended: `Equal(err, target)` returns true on identical
arguments; on non-identical arguments it delegates to a custom `Equal`
comparator on `err` when present, else to one on `target` when present,
and otherwise falls back to the (now negative) identity comparison. -/
theorem c9_equal_amended (err target : GoErr) (m : String) (b : Bool) :
    EqualFn err err = true ∧
    (err ≠ target → hasEqualMethod err = false → hasEqualMethod target = false →
      EqualFn err target = false) ∧
    (GoErr.extEqualer m b ≠ target → EqualFn (GoErr.extEqualer m b) target = b) ∧
    (err ≠ GoErr.extEqualer m b → hasEqualMethod err = false →
      EqualFn err (GoErr.extEqualer m b) = b) := by
  refine ⟨by simp [EqualFn], ?_, ?_, ?_⟩
  · intro hne h1 h2
    cases err <;> cases target <;> simp_all [EqualFn, hasEqualMethod, EqualMethodOf]
  · intro hne
    simp [EqualFn, hne, EqualMethodOf]
  · intro hne h1
    cases err <;> simp_all [EqualFn, hasEqualMethod, EqualMethodOf]

/-- Witness for C9 (amended) at concrete inputs: one instance of each of
the four cases. -/
theorem c9_equal_amended_witness :
    EqualFn (GoErr.extErr "x") (GoErr.extErr "x") = true ∧
    EqualFn (GoErr.extErr "x") (GoErr.extErr "y") = false ∧
    EqualFn (GoErr.extEqualer "m" true) (GoErr.extErr "y") = true ∧
    EqualFn (GoErr.extErr "x") (GoErr.extEqualer "m" true) = true :=
  ⟨(c9_equal_amended (GoErr.extErr "x") (GoErr.extErr "x") "m" true).1,
   (c9_equal_amended (GoErr.extErr "x") (GoErr.extErr "y") "m" true).2.1
     (by decide) (by decide) (by decide),
   (c9_equal_amended (GoErr.extErr "x") (GoErr.extErr "y") "m" true).2.2.1 (by decide),
   (c9_equal_amended (GoErr.extErr "x") (GoErr.extErr "y") "m" true).2.2.2
     (by decide) (by decide)⟩

/-- C10: every accessor method of `*Error` is total on a nil receiver:
`Error()` gives `""`, `Cause()`, `Current()` and `Unwrap()` give nil,
`Stack()` gives `""` (for both stack modes and any `GOROOT`), and `Code()`
gives the `CodeNil` sentinel — none of them panics (all are total Lean
functions). -/
theorem c10_nil_receiver_totality (brief : Bool) (goRoot : String) :
    GoErr.errString .nil = "" ∧ ErrCauseMethod .nil = .nil ∧ ErrCurrentMethod .nil = .nil ∧
    ErrUnwrapMethod .nil = .nil ∧ ErrStackMethod brief goRoot .nil = "" ∧
    ErrCodeMethod .nil = some CodeNil :=
  ⟨rfl, rfl, rfl, rfl, rfl, rfl⟩

end Fastkit
